import Mathlib

/-!
Verification development for the ssbcoach1a backend.

The repository's exposed code is the FastAPI bootstrap in
`src/backend/main.py` (route registration, middleware, and the
`create_database_indexes` startup hook) together with
`config/settings.py`.  The index-creation code is embedded directly.
The core pipeline (attempt store, scoring engine, analytics aggregator,
gamification engine) is not present in the exposed sources; it is
modelled from the specification, with each such definition marked
`Modelled from the spec:` in its doc comment.
-/

namespace SSB

/-! ## Embedding of `create_database_indexes` (src/backend/main.py, lines 127-189) -/

/-- Sort direction of one index key, mirroring pymongo's ASCENDING/DESCENDING. -/
inductive SortOrder
  | asc
  | desc
deriving DecidableEq, Repr

/-- One pymongo `IndexModel`: the ordered key list and the `unique` flag
(which defaults to `False` when not passed, as in the source). -/
structure IndexModel where
  keys : List (String × SortOrder)
  uniqueFlag : Bool := false
deriving DecidableEq, Repr

/-- Indexes created on the `users` collection (main.py lines 131-137). -/
def users_indexes : List IndexModel :=
  [ ⟨[("email", .asc)], true⟩,
    ⟨[("username", .asc)], true⟩,
    ⟨[("role", .asc)], false⟩,
    ⟨[("status", .asc)], false⟩,
    ⟨[("created_at", .desc)], false⟩ ]

/-- Indexes created on the `tests` collection (main.py lines 141-147). -/
def tests_indexes : List IndexModel :=
  [ ⟨[("type", .asc)], false⟩,
    ⟨[("difficulty", .asc)], false⟩,
    ⟨[("is_premium", .asc)], false⟩,
    ⟨[("is_active", .asc)], false⟩,
    ⟨[("created_at", .desc)], false⟩ ]

/-- Indexes created on the `test_attempts` collection (main.py lines 151-157).
Note: the compound `(user_id, test_id)` index is created WITHOUT `unique=True`. -/
def attempts_indexes : List IndexModel :=
  [ ⟨[("user_id", .asc)], false⟩,
    ⟨[("test_id", .asc)], false⟩,
    ⟨[("status", .asc)], false⟩,
    ⟨[("started_at", .desc)], false⟩,
    ⟨[("user_id", .asc), ("test_id", .asc)], false⟩ ]

/-- Indexes created on the `coaches` collection (main.py lines 161-166). -/
def coaches_indexes : List IndexModel :=
  [ ⟨[("service_branch", .asc)], false⟩,
    ⟨[("is_featured", .asc)], false⟩,
    ⟨[("is_active", .asc)], false⟩,
    ⟨[("rating", .desc)], false⟩ ]

/-- Indexes created on the `analytics` collection (main.py lines 170-175). -/
def analytics_indexes : List IndexModel :=
  [ ⟨[("user_id", .asc)], false⟩,
    ⟨[("event_type", .asc)], false⟩,
    ⟨[("timestamp", .desc)], false⟩,
    ⟨[("date", .desc)], false⟩ ]

/-- Indexes created on the `gamification` collection (main.py lines 179-183).
The `user_id` index IS created with `unique=True`. -/
def gamification_indexes : List IndexModel :=
  [ ⟨[("user_id", .asc)], true⟩,
    ⟨[("level", .desc)], false⟩,
    ⟨[("points", .desc)], false⟩ ]

/-- The six collections whose indexes `create_database_indexes` creates. -/
inductive Collection
  | users
  | tests
  | test_attempts
  | coaches
  | analytics
  | gamification
deriving DecidableEq, Repr

/-- The order in which `create_database_indexes` issues the
`create_indexes` calls (main.py lines 138, 148, 158, 167, 176, 184). -/
def collectionOrder : List Collection :=
  [.users, .tests, .test_attempts, .coaches, .analytics, .gamification]

/-- Body of the `try` block of `create_database_indexes`: the
`create_indexes` calls are issued in order; an exception raised by a call
(the oracle `raises` says which calls raise) aborts the remaining calls.
Returns the collections whose indexes were created together with the
exception message, if one was raised. -/
def create_indexes_try_body (raises : Collection → Bool) :
    List Collection → List Collection × Option String
  | [] => ([], none)
  | c :: rest =>
      if raises c then ([], some "index creation failed")
      else
        let (cs, err) := create_indexes_try_body raises rest
        (c :: cs, err)

/-- Embedding of `create_database_indexes` from main.py: the whole body runs inside a
single try/except whose handler only calls `logger.error`.  The result
records which collections got their indexes and whether an error was
logged; the `Except` layer witnesses that no exception escapes the
function. -/
def create_database_indexes (raises : Collection → Bool) :
    Except String (List Collection × Bool) :=
  match create_indexes_try_body raises collectionOrder with
  | (cs, none) => .ok (cs, false)
  | (cs, some _) => .ok (cs, true)

/-! ## Core data model

Modelled from the spec: the Test Catalog, Attempt Store, Scoring Engine,
Analytics Aggregator and Gamification Engine of spec.md §2-§4 are not
present in the exposed sources; the definitions below follow the spec's
words. -/

/-- Modelled from the spec: error taxonomy of §7 (the retryable
`TransientStorageError` concerns I/O and is outside the functional model). -/
inductive CoreError
  | ConflictError
  | InvalidStateError
  | NotFoundError
  | RubricMismatchError
deriving DecidableEq, Repr

/-- Modelled from the spec: test difficulty (a catalog attribute, §3). -/
inductive Difficulty
  | easy
  | medium
  | hard
deriving DecidableEq, Repr

/-- Modelled from the spec: the rubric's comparison modes (§4.2):
exact-match, numeric-tolerance, or weighted partial credit over expected
keywords. -/
inductive CompareMode
  | exactMatch
  | numericTolerance
  | weightedCredit
deriving DecidableEq, Repr

/-- Modelled from the spec: one rubric entry — expected answer,
comparison mode, weight (glossary: "per-question scoring specification"). -/
structure RubricEntry where
  questionId : String
  expected : String
  mode : CompareMode
  weight : Nat
  tolerance : Nat := 0
deriving DecidableEq, Repr

/-- Modelled from the spec: a Test of the immutable catalog (§3). -/
structure Test where
  id : String
  difficulty : Difficulty
  questions : List String
  rubric : List RubricEntry
  isPremium : Bool := false
  isActive : Bool := true
deriving DecidableEq, Repr

/-- Modelled from the spec: attempt states (§4.1):
`Created → InProgress → Submitted → Scored`, side terminal `Abandoned`. -/
inductive AttemptState
  | created
  | inProgress
  | submitted
  | scored
  | abandoned
deriving DecidableEq, Repr

/-- A state that blocks a new `start` for the same (user, test):
Created or InProgress (spec §4.1 / invariant §3). -/
def AttemptState.isActive : AttemptState → Bool
  | .created => true
  | .inProgress => true
  | _ => false

/-- Modelled from the spec: a TestAttempt record (§3). -/
structure TestAttempt where
  id : Nat
  userId : String
  testId : String
  state : AttemptState
  answers : List (String × String)
  startedAt : Nat
  submittedAt : Option Nat := none
  score : Option Nat := none
deriving DecidableEq, Repr

/-- Modelled from the spec: the four analytics event types (§3). -/
inductive EventType
  | attempt_started
  | answer_submitted
  | attempt_submitted
  | attempt_scored
deriving DecidableEq, Repr

/-- Modelled from the spec: an AnalyticsEvent (§3); the score payload is
carried only by `attempt_scored` (§4.2). -/
structure AnalyticsEvent where
  eventType : EventType
  userId : String
  attemptId : Nat
  testId : String
  timestamp : Nat
  score : Option Nat := none
deriving DecidableEq, Repr

/-- Modelled from the spec: the Attempt Store's persistent state —
attempt records plus the append-only event log (§3, §6). -/
structure Store where
  attempts : List TestAttempt
  events : List AnalyticsEvent
  nextId : Nat
deriving DecidableEq, Repr

/-- The empty store. -/
def emptyStore : Store := ⟨[], [], 0⟩

/-! ## Scoring Engine (spec §4.2) -/

/-- Modelled from the spec: per-mode comparison of a recorded response
against the expected key (§4.2); returns the credit earned out of the
entry's weight. -/
def responseCredit (e : RubricEntry) (r : String) : Nat :=
  match e.mode with
  | .exactMatch => if r = e.expected then e.weight else 0
  | .numericTolerance =>
      match r.toNat?, e.expected.toNat? with
      | some a, some b =>
          if a ≤ b + e.tolerance ∧ b ≤ a + e.tolerance then e.weight else 0
      | _, _ => 0
  | .weightedCredit =>
      let keys := e.expected.splitOn ","
      let given := r.splitOn ","
      let hits := keys.countP (fun k => given.contains k)
      if keys.length = 0 then 0 else e.weight * hits / keys.length

/-- Modelled from the spec: credit of one rubric entry against the
attempt's answers; an unanswered question scores zero but does not
error (§4.2). -/
def questionCredit (e : RubricEntry) (answers : List (String × String)) : Nat :=
  match answers.lookup e.questionId with
  | none => 0
  | some r => responseCredit e r

/-- Modelled from the spec: the score breakdown — total on the 0-100
scale plus the per-section (per-question) breakdown (§4.2). -/
structure ScoreBreakdown where
  total : Nat
  sections : List (String × Nat)
deriving DecidableEq, Repr

/-- Modelled from the spec: the Scoring Engine (§4.2) — a pure function
from (answers, rubric) to a score breakdown.  A question of the test
without a rubric entry is a data-integrity failure (`RubricMismatchError`);
section credits accumulate by weight and the total is normalized to 0-100. -/
def evaluate (t : Test) (answers : List (String × String)) :
    Except CoreError ScoreBreakdown :=
  if t.questions.all (fun q => t.rubric.any (fun e => e.questionId == q)) then
    let sections := t.rubric.map (fun e => (e.questionId, questionCredit e answers))
    let raw := (sections.map Prod.snd).sum
    let totalWeight := (t.rubric.map RubricEntry.weight).sum
    .ok ⟨if totalWeight = 0 then 0 else raw * 100 / totalWeight, sections⟩
  else .error .RubricMismatchError

/-- Modelled from the spec: the scoring judgment as an evaluation
relation, used to state determinism (§4.2): a run of the engine on
(answers, rubric) may produce a result.  The `answered` / `unanswered`
split mirrors the per-question branching on the recorded response. -/
inductive CreditRel : RubricEntry → List (String × String) → Nat → Prop
  | unanswered (e : RubricEntry) (answers : List (String × String))
      (h : answers.lookup e.questionId = none) : CreditRel e answers 0
  | answered (e : RubricEntry) (answers : List (String × String)) (r : String)
      (h : answers.lookup e.questionId = some r) :
      CreditRel e answers (responseCredit e r)

/-- Modelled from the spec: a run of the engine over the whole rubric,
producing the per-section breakdown entry by entry. -/
inductive BreakdownRel : List RubricEntry → List (String × String) →
    List (String × Nat) → Prop
  | nil (answers : List (String × String)) : BreakdownRel [] answers []
  | cons (e : RubricEntry) (es : List RubricEntry)
      (answers : List (String × String)) (n : Nat) (bs : List (String × Nat))
      (h : CreditRel e answers n) (hs : BreakdownRel es answers bs) :
      BreakdownRel (e :: es) answers ((e.questionId, n) :: bs)

/-- Modelled from the spec: the Scoring Engine's top-level judgment —
either the rubric covers every question and a breakdown with a
normalized total is produced, or the engine fails closed with
`RubricMismatchError` (§4.2). -/
inductive ScoresTo : Test → List (String × String) →
    Except CoreError ScoreBreakdown → Prop
  | ok (t : Test) (answers : List (String × String)) (bs : List (String × Nat))
      (hcov : t.questions.all (fun q => t.rubric.any (fun e => e.questionId == q)) = true)
      (hbs : BreakdownRel t.rubric answers bs) :
      ScoresTo t answers (.ok ⟨if (t.rubric.map RubricEntry.weight).sum = 0 then 0
        else (bs.map Prod.snd).sum * 100 / (t.rubric.map RubricEntry.weight).sum, bs⟩)
  | mismatch (t : Test) (answers : List (String × String))
      (hcov : t.questions.all (fun q => t.rubric.any (fun e => e.questionId == q)) = false) :
      ScoresTo t answers (.error .RubricMismatchError)

/-! ## Attempt Store operations (spec §4.1) -/

/-- Look up an attempt by identifier. -/
def findAttempt (s : Store) (attemptId : Nat) : Option TestAttempt :=
  s.attempts.find? (fun a => a.id == attemptId)

/-- The attempt blocks a new start for (user, test): it belongs to that
pair and is in a non-terminal (Created/InProgress) state. -/
def activePred (u t : String) (a : TestAttempt) : Bool :=
  a.userId == u && a.testId == t && a.state.isActive

/-- Whether an attempt in a non-terminal (Created/InProgress) state
already exists for (user, test). -/
def hasActive (s : Store) (u t : String) : Bool :=
  s.attempts.any (activePred u t)

/-- Number of non-terminal attempts a store holds for (user, test). -/
def activeCount (s : Store) (u t : String) : Nat :=
  s.attempts.countP (activePred u t)

/-- Apply `f` to the attempt with the given id and append the given
events to the log (each transition performs one state write plus its
event emission, spec §4.1). -/
def updateAttempt (s : Store) (attemptId : Nat) (f : TestAttempt → TestAttempt)
    (evs : List AnalyticsEvent) : Store :=
  ⟨s.attempts.map (fun a => if a.id == attemptId then f a else a),
    s.events ++ evs, s.nextId⟩

/-- Modelled from the spec: `start(user, test)` (§4.1) — fails with
`ConflictError` if a Created/InProgress attempt exists for (user, test);
otherwise creates an attempt that reaches InProgress, records the start
timestamp, and emits one `attempt_started` event. -/
def start (s : Store) (u t : String) (now : Nat) :
    Except CoreError (Store × TestAttempt) :=
  if hasActive s u t then .error .ConflictError
  else
    let a : TestAttempt := ⟨s.nextId, u, t, .inProgress, [], now, none, none⟩
    .ok (⟨a :: s.attempts,
          s.events ++ [⟨.attempt_started, u, s.nextId, t, now, none⟩],
          s.nextId + 1⟩, a)

/-- Upsert a response for one question: last write wins per question,
insertion order preserved (spec §3, §4.1). -/
def upsertAnswer (answers : List (String × String)) (q r : String) :
    List (String × String) :=
  if answers.any (fun p => p.1 == q) then
    answers.map (fun p => if p.1 == q then (q, r) else p)
  else answers ++ [(q, r)]

/-- Modelled from the spec: `recordAnswer(attemptId, questionId, response)`
(§4.1) — `InvalidStateError` unless InProgress, `NotFoundError` for an
unknown attempt or a question not part of the referenced test; upserts
the answer and emits `answer_submitted`. -/
def recordAnswer (s : Store) (catalog : List Test) (attemptId : Nat)
    (q r : String) (now : Nat) : Except CoreError Store :=
  match findAttempt s attemptId with
  | none => .error .NotFoundError
  | some a =>
      if a.state = .inProgress then
        match catalog.find? (fun t => t.id == a.testId) with
        | none => .error .NotFoundError
        | some t =>
            if q ∈ t.questions then
              .ok (updateAttempt s attemptId
                (fun b => { b with answers := upsertAnswer b.answers q r })
                [⟨.answer_submitted, a.userId, attemptId, a.testId, now, none⟩])
            else .error .NotFoundError
      else .error .InvalidStateError

/-- Modelled from the spec: `submit(attemptId)` (§4.1) — fails with
`InvalidStateError` unless InProgress; transitions to Submitted, records
the submitted-at timestamp, and emits one `attempt_submitted` event. -/
def submit (s : Store) (attemptId : Nat) (now : Nat) : Except CoreError Store :=
  match findAttempt s attemptId with
  | none => .error .NotFoundError
  | some a =>
      if a.state = .inProgress then
        .ok (updateAttempt s attemptId
          (fun b => { b with state := .submitted, submittedAt := some now })
          [⟨.attempt_submitted, a.userId, attemptId, a.testId, now, none⟩])
      else .error .InvalidStateError

/-- The store an operation leaves behind: the new store on success, the
old store unchanged on failure (the all-or-nothing boundary of §7). -/
def runOp (s : Store) (r : Except CoreError Store) : Store :=
  match r with
  | .ok s' => s'
  | .error _ => s

/-- Modelled from the spec: the scoring transition (§4.2) — on success
of the Scoring Engine, the Attempt Store moves Submitted → Scored,
persists the score, and emits one `attempt_scored` event carrying the
score. -/
def scoreAttempt (s : Store) (catalog : List Test) (attemptId : Nat)
    (now : Nat) : Except CoreError Store :=
  match findAttempt s attemptId with
  | none => .error .NotFoundError
  | some a =>
      if a.state = .submitted then
        match catalog.find? (fun t => t.id == a.testId) with
        | none => .error .NotFoundError
        | some t =>
            match evaluate t a.answers with
            | .error e => .error e
            | .ok br =>
                .ok (updateAttempt s attemptId
                  (fun b => { b with state := .scored, score := some br.total })
                  [⟨.attempt_scored, a.userId, attemptId, a.testId, now,
                    some br.total⟩])
      else .error .InvalidStateError

/-- Modelled from the spec: `abandon(attemptId)` / timeout sweep (§4.1) —
Created/InProgress → Abandoned, terminal; none of the four event types
covers abandonment, so no event is appended. -/
def abandon (s : Store) (attemptId : Nat) : Except CoreError Store :=
  match findAttempt s attemptId with
  | none => .error .NotFoundError
  | some a =>
      if a.state.isActive then
        .ok (updateAttempt s attemptId (fun b => { b with state := .abandoned }) [])
      else .error .InvalidStateError

/-- Modelled from the spec: the states of the attempt store reachable
from the empty store by successful operations (§4.1, §5). -/
inductive Reachable : Store → Prop
  | empty : Reachable emptyStore
  | start {s s' : Store} {u t : String} {now : Nat} {a : TestAttempt}
      (hs : Reachable s) (h : start s u t now = .ok (s', a)) : Reachable s'
  | record {s s' : Store} {catalog : List Test} {attemptId : Nat}
      {q r : String} {now : Nat}
      (hs : Reachable s) (h : recordAnswer s catalog attemptId q r now = .ok s') :
      Reachable s'
  | submit {s s' : Store} {attemptId now : Nat}
      (hs : Reachable s) (h : submit s attemptId now = .ok s') : Reachable s'
  | score {s s' : Store} {catalog : List Test} {attemptId now : Nat}
      (hs : Reachable s) (h : scoreAttempt s catalog attemptId now = .ok s') :
      Reachable s'
  | abandon {s s' : Store} {attemptId : Nat}
      (hs : Reachable s) (h : abandon s attemptId = .ok s') : Reachable s'

/-! ## Gamification Engine (spec §4.4) -/

/-- Modelled from the spec: base points per test difficulty (§4.4); the
spec leaves the exact table configurable, this is the default curve. -/
def basePoints : Difficulty → Nat
  | .easy => 50
  | .medium => 100
  | .hard => 150

/-- Modelled from the spec: the performance multiplier derived from the
score — monotonic, piecewise: full credit above a high-score threshold,
scaled down below (§4.4). -/
def multiplier (score : Nat) : Nat :=
  if 90 ≤ score then 3
  else if 70 ≤ score then 2
  else 1

/-- Modelled from the spec: the increasing sequence of level thresholds
(§4.4); reaching threshold i means exceeding level i. -/
def levelThresholds : List Nat := [100, 250, 500, 1000, 2000]

/-- Modelled from the spec: level as a step function of cumulative
points — one plus the number of thresholds reached (§4.4). -/
def levelOf (points : Nat) : Nat :=
  1 + levelThresholds.countP (fun t => t ≤ points)

/-- Modelled from the spec: GamificationState (§3) — one record per
user, level, total points, and the set of already-applied attempt
identifiers used for idempotency. -/
structure GamificationState where
  userId : String
  points : Nat
  level : Nat
  applied : List Nat
deriving DecidableEq, Repr

/-- Modelled from the spec: the initial per-user state (level 1, zero
points, nothing applied). -/
def initGamification (u : String) : GamificationState := ⟨u, 0, 1, []⟩

/-- Modelled from the spec: an `attempt_scored` event as consumed by the
Gamification Engine, carrying the attempt identifier, user, test
difficulty and score (§4.2, §4.4). -/
structure ScoredEvent where
  attemptId : Nat
  userId : String
  testId : String
  difficulty : Difficulty
  score : Nat
deriving DecidableEq, Repr

/-- Modelled from the spec: the Gamification Engine's update (§4.4) — if
the attempt identifier is already recorded as applied the event is a
no-op; otherwise the point delta `basePoints × multiplier(score)` is
added, the level re-derived, and the identifier recorded. -/
def applyScored (g : GamificationState) (e : ScoredEvent) : GamificationState :=
  if e.attemptId ∈ g.applied then g
  else
    let pts := g.points + basePoints e.difficulty * multiplier e.score
    { g with points := pts, level := levelOf pts, applied := e.attemptId :: g.applied }

/-- Modelled from the spec: the gamification store, one record per user
(§3); consuming an event updates the user's record, creating it at the
initial state on first contact. -/
def applyScoredStore (store : List GamificationState) (e : ScoredEvent) :
    List GamificationState :=
  match store.find? (fun g => g.userId == e.userId) with
  | some _ => store.map (fun g => if g.userId == e.userId then applyScored g e else g)
  | none => applyScored (initGamification e.userId) e :: store

/-! ## Analytics Aggregator (spec §4.3) -/

/-- Modelled from the spec: the derived rollups (§4.3) — per-event-type
counts, score sum for averages, and completion durations obtained by
pairing started/submitted events per attemptId. -/
structure Rollups where
  startedCount : Nat
  answerCount : Nat
  submittedCount : Nat
  scoredCount : Nat
  scoreSum : Nat
  startTimes : List (Nat × Nat)
  durationSum : Nat
  durationCount : Nat
deriving DecidableEq, Repr

/-- The empty aggregation state. -/
def emptyRollups : Rollups := ⟨0, 0, 0, 0, 0, [], 0, 0⟩

/-- Modelled from the spec: consuming one analytics event (§4.3) — pure
in the event, never touching attempt or gamification state; durations
pair a submitted event with the recorded start time of its attemptId. -/
def aggStep (roll : Rollups) (e : AnalyticsEvent) : Rollups :=
  match e.eventType with
  | .attempt_started =>
      { roll with
          startedCount := roll.startedCount + 1
          startTimes := roll.startTimes ++ [(e.attemptId, e.timestamp)] }
  | .answer_submitted => { roll with answerCount := roll.answerCount + 1 }
  | .attempt_submitted =>
      match roll.startTimes.lookup e.attemptId with
      | some t0 =>
          { roll with
              submittedCount := roll.submittedCount + 1
              durationSum := roll.durationSum + (e.timestamp - t0)
              durationCount := roll.durationCount + 1 }
      | none => { roll with submittedCount := roll.submittedCount + 1 }
  | .attempt_scored =>
      { roll with
          scoredCount := roll.scoredCount + 1
          scoreSum := roll.scoreSum + e.score.getD 0 }

/-- Modelled from the spec: aggregation as a replay of an event log from
a given state (§4.3). -/
def aggregateFrom (roll : Rollups) (log : List AnalyticsEvent) : Rollups :=
  log.foldl aggStep roll

/-- Modelled from the spec: full aggregation of an event log from the
empty state (§4.3). -/
def aggregate (log : List AnalyticsEvent) : Rollups :=
  aggregateFrom emptyRollups log

/-! ## Concrete fixtures (spec §8 scenario) -/

/-- The test of the §8 scenario: 3 questions, exact-match rubric with
weights 40/30/30. -/
def demoTest : Test :=
  ⟨"T", .medium, ["Q1", "Q2", "Q3"],
    [⟨"Q1", "A", .exactMatch, 40, 0⟩,
     ⟨"Q2", "B", .exactMatch, 30, 0⟩,
     ⟨"Q3", "C", .exactMatch, 30, 0⟩], false, true⟩

/-- A one-test catalog holding the scenario's test. -/
def demoCatalog : List Test := [demoTest]

/-- The scenario's answer set: Q1 correct, Q2 incorrect, Q3 correct. -/
def demoAnswers : List (String × String) := [("Q1", "A"), ("Q2", "X"), ("Q3", "C")]

/-- The §8 scenario run: start, answer Q1 correctly, Q2 incorrectly,
Q3 correctly, submit, score. -/
def scenarioRun : Except CoreError Store := do
  let (s1, a) ← start emptyStore "U" "T" 0
  let s2 ← recordAnswer s1 demoCatalog a.id "Q1" "A" 1
  let s3 ← recordAnswer s2 demoCatalog a.id "Q2" "X" 2
  let s4 ← recordAnswer s3 demoCatalog a.id "Q3" "C" 3
  let s5 ← submit s4 a.id 4
  scoreAttempt s5 demoCatalog a.id 4

/-- The store after a single successful `start` from the empty store. -/
def demoStore1 : Store :=
  ⟨[⟨0, "U", "T", .inProgress, [], 0, none, none⟩],
   [⟨.attempt_started, "U", 0, "T", 0, none⟩], 1⟩

/-- A store holding one already-submitted attempt. -/
def demoStoreSubmitted : Store :=
  ⟨[⟨0, "U", "T", .submitted, demoAnswers, 0, some 4, none⟩],
   [], 1⟩

/-! ## Supporting lemmas -/

/-- Counting after a map cannot grow when the map only ever turns the
predicate off. -/
theorem countP_map_le {α : Type} (p : α → Bool) (f : α → α)
    (h : ∀ a, p (f a) = true → p a = true) :
    ∀ l : List α, (l.map f).countP p ≤ l.countP p := by
  intro l
  induction l with
  | nil => simp
  | cons a l ih =>
      simp only [List.map_cons]
      by_cases hp : p (f a) = true
      · rw [List.countP_cons_of_pos _ _ hp, List.countP_cons_of_pos _ _ (h a hp)]
        omega
      · rw [List.countP_cons_of_neg _ _ hp]
        by_cases hpa : p a = true
        · rw [List.countP_cons_of_pos _ _ hpa]; omega
        · rw [List.countP_cons_of_neg _ _ hpa]; omega

/-- If no attempt of the store is active for (user, test), the active
count is zero. -/
theorem activeCount_eq_zero_of_not_hasActive {s : Store} {u t : String}
    (h : hasActive s u t = false) : activeCount s u t = 0 := by
  unfold hasActive at h
  unfold activeCount
  exact List.countP_eq_zero.mpr (List.any_eq_false.mp h)

/-- An attempt update whose per-attempt rewrite only ever deactivates
the (user, test) predicate does not raise the active count. -/
theorem activeCount_updateAttempt_le (s : Store) (attemptId : Nat)
    (f : TestAttempt → TestAttempt) (evs : List AnalyticsEvent) (u t : String)
    (hf : ∀ a, activePred u t (f a) = true → activePred u t a = true) :
    activeCount (updateAttempt s attemptId f evs) u t ≤ activeCount s u t := by
  unfold activeCount updateAttempt
  apply countP_map_le
  intro a ha
  by_cases hid : (a.id == attemptId) = true
  · rw [if_pos hid] at ha
    exact hf a ha
  · rwa [if_neg hid] at ha

/-- A rewrite that leaves userId, testId and state untouched keeps the
predicate; used for `recordAnswer`. -/
theorem activePred_answers_update (u t : String) (q r : String) :
    ∀ a : TestAttempt,
      activePred u t { a with answers := upsertAnswer a.answers q r } = true →
      activePred u t a = true :=
  fun _ h => h

/-- A rewrite that moves the attempt into Submitted deactivates it. -/
theorem activePred_submitted_update (u t : String) (now : Nat) :
    ∀ a : TestAttempt,
      activePred u t { a with state := .submitted, submittedAt := some now } = true →
      activePred u t a = true := by
  intro a h
  simp [activePred, AttemptState.isActive] at h

/-- A rewrite that moves the attempt into Scored deactivates it. -/
theorem activePred_scored_update (u t : String) (sc : Option Nat) :
    ∀ a : TestAttempt,
      activePred u t { a with state := .scored, score := sc } = true →
      activePred u t a = true := by
  intro a h
  simp [activePred, AttemptState.isActive] at h

/-- A rewrite that moves the attempt into Abandoned deactivates it. -/
theorem activePred_abandoned_update (u t : String) :
    ∀ a : TestAttempt,
      activePred u t { a with state := .abandoned } = true →
      activePred u t a = true := by
  intro a h
  simp [activePred, AttemptState.isActive] at h

/-- The Attempt Store invariant: every reachable store holds at most one
non-terminal (Created/InProgress) attempt per (user, test). -/
theorem reachable_activeCount_le_one {s : Store} (hs : Reachable s) :
    ∀ u t : String, activeCount s u t ≤ 1 := by
  induction hs with
  | empty => intro u t; simp [activeCount, emptyStore]
  | @start s s' u₀ t₀ now a _ h ih =>
      intro u t
      unfold start at h
      by_cases hact : hasActive s u₀ t₀ = true
      · rw [if_pos hact] at h
        exact absurd h (by simp)
      · rw [if_neg hact] at h
        have h' :
            (⟨⟨s.nextId, u₀, t₀, .inProgress, [], now, none, none⟩ :: s.attempts,
              s.events ++ [⟨.attempt_started, u₀, s.nextId, t₀, now, none⟩],
              s.nextId + 1⟩ : Store) = s' := by
          have := congrArg (fun x : Store × TestAttempt => x.1)
            (Except.ok.inj h)
          exact this
        rw [← h']
        show (⟨s.nextId, u₀, t₀, .inProgress, [], now, none, none⟩ ::
          s.attempts).countP (activePred u t) ≤ 1
        by_cases hp :
            activePred u t ⟨s.nextId, u₀, t₀, .inProgress, [], now, none, none⟩ = true
        · rw [List.countP_cons_of_pos _ _ hp]
          have huv : u₀ = u ∧ t₀ = t := by
            simpa [activePred, AttemptState.isActive] using hp
          obtain ⟨rfl, rfl⟩ := huv
          have h0 : activeCount s u₀ t₀ = 0 :=
            activeCount_eq_zero_of_not_hasActive (Bool.eq_false_iff.mpr hact)
          unfold activeCount at h0
          omega
        · rw [List.countP_cons_of_neg _ _ hp]
          exact ih u t
  | @record s s' catalog attemptId q r now _ h ih =>
      intro u t
      unfold recordAnswer at h
      split at h
      · exact absurd h (by simp)
      · split at h
        · split at h
          · exact absurd h (by simp)
          · split at h
            · have h' := Except.ok.inj h
              rw [← h']
              exact le_trans
                (activeCount_updateAttempt_le _ _ _ _ u t
                  (activePred_answers_update u t q r)) (ih u t)
            · exact absurd h (by simp)
        · exact absurd h (by simp)
  | @submit s s' attemptId now _ h ih =>
      intro u t
      unfold submit at h
      split at h
      · exact absurd h (by simp)
      · split at h
        · have h' := Except.ok.inj h
          rw [← h']
          exact le_trans
            (activeCount_updateAttempt_le _ _ _ _ u t
              (activePred_submitted_update u t now)) (ih u t)
        · exact absurd h (by simp)
  | @score s s' catalog attemptId now _ h ih =>
      intro u t
      unfold scoreAttempt at h
      split at h
      · exact absurd h (by simp)
      · split at h
        · split at h
          · exact absurd h (by simp)
          · split at h
            · exact absurd h (by simp)
            · have h' := Except.ok.inj h
              rw [← h']
              exact le_trans
                (activeCount_updateAttempt_le _ _ _ _ u t
                  (activePred_scored_update u t _)) (ih u t)
        · exact absurd h (by simp)
  | @abandon s s' attemptId _ h ih =>
      intro u t
      unfold SSB.abandon at h
      split at h
      · exact absurd h (by simp)
      · split at h
        · have h' := Except.ok.inj h
          rw [← h']
          exact le_trans
            (activeCount_updateAttempt_le _ _ _ _ u t
              (activePred_abandoned_update u t)) (ih u t)
        · exact absurd h (by simp)

/-! ## Claims -/

/-- C1 (counterexample): the claim that the persistence layer enforces a
unique-key constraint on (user, test) is false on the code —
`create_database_indexes` creates the compound `(user_id, test_id)`
index on the test_attempts collection without `unique=True`, and no
index of that collection is unique at all. -/
theorem attempts_pair_index_not_unique :
    ¬ ∃ m ∈ attempts_indexes,
      m.keys = [("user_id", SortOrder.asc), ("test_id", SortOrder.asc)] ∧
      m.uniqueFlag = true := by
  decide

/-- C1 (amended): every reachable state of the attempt store holds at
most one TestAttempt per (user, test) in a non-terminal (Created or
InProgress) state — maintained by the Attempt Store's start-time
conflict check — while the persistence layer only creates a non-unique
compound index on (user_id, test_id). -/
theorem active_attempt_at_most_one (s : Store) (hs : Reachable s)
    (u t : String) :
    activeCount s u t ≤ 1 ∧
    (⟨[("user_id", SortOrder.asc), ("test_id", SortOrder.asc)], false⟩ :
      IndexModel) ∈ attempts_indexes :=
  ⟨reachable_activeCount_le_one hs u t, by decide⟩

/-- C1 (witness): the invariant instantiated at the store reached by one
successful `start`. -/
theorem active_attempt_at_most_one_witness :
    activeCount demoStore1 "U" "T" ≤ 1 ∧
    (⟨[("user_id", SortOrder.asc), ("test_id", SortOrder.asc)], false⟩ :
      IndexModel) ∈ attempts_indexes :=
  active_attempt_at_most_one demoStore1
    (Reachable.start Reachable.empty rfl) "U" "T"

/-- Non-terminal states are exactly Created and InProgress. -/
theorem isActive_iff (st : AttemptState) :
    st.isActive = true ↔ (st = .created ∨ st = .inProgress) := by
  cases st <;> simp [AttemptState.isActive]

/-- Unfolding of the conflict predicate into plain equalities. -/
theorem activePred_iff (u t : String) (a : TestAttempt) :
    activePred u t a = true ↔
      (a.userId = u ∧ a.testId = t ∧
        (a.state = .created ∨ a.state = .inProgress)) := by
  simp [activePred, isActive_iff, and_assoc]

/-- Unfolding of the conflict check into an existential over the store. -/
theorem hasActive_iff (s : Store) (u t : String) :
    hasActive s u t = true ↔
      ∃ a ∈ s.attempts, a.userId = u ∧ a.testId = t ∧
        (a.state = .created ∨ a.state = .inProgress) := by
  unfold hasActive
  simp only [List.any_eq_true, activePred_iff]

/-- C10: `create_database_indexes` never raises — whatever subset of the
`create_indexes` calls throws, the function returns normally (the
exception is only logged) — and when the very first call (users) throws,
startup proceeds although no collection's indexes, including the unique
constraints on users and gamification, were created. -/
theorem create_database_indexes_never_raises :
    (∀ raises : Collection → Bool,
      ∃ r, create_database_indexes raises = .ok r) ∧
    create_database_indexes (fun _ => true) = .ok ([], true) := by
  constructor
  · intro raises
    unfold create_database_indexes
    cases h : create_indexes_try_body raises collectionOrder with
    | mk cs err => cases err <;> exact ⟨_, rfl⟩
  · rfl

/-- C4: `start(user, test)` fails with `ConflictError` exactly when a
Created/InProgress attempt already exists for (user, test); otherwise it
creates a new attempt in state InProgress with the start timestamp
recorded and appends exactly one `attempt_started` event to the log. -/
theorem start_spec (s : Store) (u t : String) (now : Nat) :
    ((∃ a ∈ s.attempts, a.userId = u ∧ a.testId = t ∧
        (a.state = .created ∨ a.state = .inProgress)) →
      start s u t now = .error .ConflictError) ∧
    ((∀ a ∈ s.attempts, a.userId = u → a.testId = t →
        a.state ≠ .created ∧ a.state ≠ .inProgress) →
      ∃ s' a, start s u t now = .ok (s', a) ∧
        a.state = .inProgress ∧ a.startedAt = now ∧
        a.userId = u ∧ a.testId = t ∧ a ∈ s'.attempts ∧
        s'.events = s.events ++
          [⟨.attempt_started, u, s.nextId, t, now, none⟩]) := by
  constructor
  · intro hex
    have hact : hasActive s u t = true := (hasActive_iff s u t).mpr hex
    unfold start
    rw [if_pos hact]
  · intro hall
    have hact : ¬ hasActive s u t = true := by
      intro htrue
      obtain ⟨a, ha, h1, h2, h3⟩ := (hasActive_iff s u t).mp htrue
      rcases h3 with h3 | h3
      · exact (hall a ha h1 h2).1 h3
      · exact (hall a ha h1 h2).2 h3
    refine ⟨⟨⟨s.nextId, u, t, .inProgress, [], now, none, none⟩ :: s.attempts,
        s.events ++ [⟨.attempt_started, u, s.nextId, t, now, none⟩],
        s.nextId + 1⟩,
      ⟨s.nextId, u, t, .inProgress, [], now, none, none⟩,
      ?_, rfl, rfl, rfl, rfl, List.mem_cons_self _ _, rfl⟩
    unfold start
    rw [if_neg hact]

/-- C4 (witness): starting from the empty store succeeds and emits one
`attempt_started` event. -/
theorem start_spec_witness :
    ∃ s' a, start emptyStore "U" "T" 0 = .ok (s', a) ∧
      a.state = .inProgress ∧ a.startedAt = 0 ∧
      a.userId = "U" ∧ a.testId = "T" ∧ a ∈ s'.attempts ∧
      s'.events = emptyStore.events ++
        [⟨.attempt_started, "U", emptyStore.nextId, "T", 0, none⟩] :=
  (start_spec emptyStore "U" "T" 0).2 (by simp [emptyStore])

/-- C5: submitting an attempt whose state is not InProgress fails with
`InvalidStateError`, and the failed call leaves the store unchanged. -/
theorem submit_not_in_progress (s : Store) (attemptId now : Nat)
    (a : TestAttempt) (hf : findAttempt s attemptId = some a)
    (hst : a.state ≠ .inProgress) :
    submit s attemptId now = .error .InvalidStateError ∧
    runOp s (submit s attemptId now) = s := by
  have hsub : submit s attemptId now = .error .InvalidStateError := by
    unfold submit
    rw [hf]
    exact if_neg hst
  refine ⟨hsub, ?_⟩
  unfold runOp
  rw [hsub]

/-- C5 (witness): submitting an already-submitted attempt fails and the
store is untouched. -/
theorem submit_not_in_progress_witness :
    submit demoStoreSubmitted 0 5 = .error .InvalidStateError ∧
    runOp demoStoreSubmitted (submit demoStoreSubmitted 0 5) =
      demoStoreSubmitted :=
  submit_not_in_progress demoStoreSubmitted 0 5
    ⟨0, "U", "T", .submitted, demoAnswers, 0, some 4, none⟩
    rfl (by decide)

/-- A second application of the same scored event is absorbed. -/
theorem applyScored_twice (g : GamificationState) (e : ScoredEvent) :
    applyScored (applyScored g e) e = applyScored g e := by
  by_cases h : e.attemptId ∈ g.applied
  · simp [applyScored, h]
  · simp [applyScored, h]

/-- C2: re-delivering an `attempt_scored` event any number of further
times to the Gamification Engine after its first application leaves the
state unchanged — the point/level delta lands at most once per attempt
identifier, and redelivery is a no-op, not an error. -/
theorem applyScored_idempotent (g : GamificationState) (e : ScoredEvent)
    (n : Nat) :
    (fun st => applyScored st e)^[n] (applyScored g e) = applyScored g e := by
  induction n with
  | zero => rfl
  | succ n ih =>
      rw [Function.iterate_succ_apply]
      simpa [applyScored_twice] using ih

/-- Counting with a weaker predicate counts at least as much. -/
theorem countP_impl_le (P Q : Nat → Bool) (h : ∀ a, P a = true → Q a = true) :
    ∀ l : List Nat, l.countP P ≤ l.countP Q := by
  intro l
  induction l with
  | nil => simp
  | cons a l ih =>
      by_cases hp : P a = true
      · rw [List.countP_cons_of_pos _ _ hp, List.countP_cons_of_pos _ _ (h a hp)]
        omega
      · rw [List.countP_cons_of_neg _ _ hp]
        by_cases hq : Q a = true
        · rw [List.countP_cons_of_pos _ _ hq]; omega
        · rw [List.countP_cons_of_neg _ _ hq]; omega

/-- The level step function never steps down as points grow. -/
theorem levelOf_mono {p q : Nat} (h : p ≤ q) : levelOf p ≤ levelOf q := by
  unfold levelOf
  have := countP_impl_le (fun t => decide (t ≤ p)) (fun t => decide (t ≤ q))
    (fun a ha => by
      simp only [decide_eq_true_eq] at ha ⊢
      omega) levelThresholds
  omega

/-- C8: the gamification level is a monotonic step function of
cumulative points, and an engine update on a well-formed state (level
derived from points) never decreases the level and keeps it derived. -/
theorem level_monotone :
    (∀ p q : Nat, p ≤ q → levelOf p ≤ levelOf q) ∧
    (∀ (g : GamificationState) (e : ScoredEvent),
      g.level = levelOf g.points →
      g.level ≤ (applyScored g e).level ∧
      (applyScored g e).level = levelOf (applyScored g e).points) := by
  refine ⟨fun p q h => levelOf_mono h, fun g e hwf => ?_⟩
  by_cases h : e.attemptId ∈ g.applied
  · constructor
    · simp [applyScored, h]
    · simpa [applyScored, h] using hwf
  · constructor
    · have : levelOf g.points ≤
          levelOf (g.points + basePoints e.difficulty * multiplier e.score) :=
        levelOf_mono (Nat.le_add_right _ _)
      rw [hwf]
      simpa [applyScored, h] using this
    · simp [applyScored, h]

/-- C8 (witness): the engine update on the fresh user state. -/
theorem level_monotone_witness :
    (initGamification "U").level ≤
      (applyScored (initGamification "U") ⟨0, "U", "T", .medium, 70⟩).level ∧
    (applyScored (initGamification "U") ⟨0, "U", "T", .medium, 70⟩).level =
      levelOf
        (applyScored (initGamification "U") ⟨0, "U", "T", .medium, 70⟩).points :=
  level_monotone.2 (initGamification "U") ⟨0, "U", "T", .medium, 70⟩ (by decide)

/-- C7: replaying an event log from the empty aggregation state
reproduces exactly the rollups of the original incremental run, however
that run chunked the log — aggregation is a pure fold over the events. -/
theorem aggregate_replay (chunks : List (List AnalyticsEvent)) :
    chunks.foldl (fun roll c => aggregateFrom roll c) emptyRollups =
      aggregate chunks.flatten := by
  simp only [aggregateFrom, aggregate]
  exact (List.foldl_flatten _ _ _).symm

/-- The engine update never changes which user a record belongs to. -/
theorem applyScored_userId (g : GamificationState) (e : ScoredEvent) :
    (applyScored g e).userId = g.userId := by
  unfold applyScored
  split <;> rfl

/-- Consuming a scored event preserves one-record-per-user. -/
theorem gamStore_nodup (store : List GamificationState) (e : ScoredEvent)
    (h : (store.map GamificationState.userId).Nodup) :
    ((applyScoredStore store e).map GamificationState.userId).Nodup := by
  unfold applyScoredStore
  cases hfind : store.find? (fun g => g.userId == e.userId) with
  | some g =>
      have heq :
          (store.map (fun g =>
            if g.userId == e.userId then applyScored g e else g)).map
              GamificationState.userId =
          store.map GamificationState.userId := by
        rw [List.map_map]
        apply List.map_congr_left
        intro a _
        by_cases hu : (a.userId == e.userId) = true
        · simp [Function.comp, hu, applyScored_userId]
        · simp [Function.comp, hu]
      rw [heq]
      exact h
  | none =>
      rw [List.map_cons, List.nodup_cons]
      refine ⟨?_, h⟩
      rw [applyScored_userId]
      show e.userId ∉ store.map GamificationState.userId
      intro hmem
      obtain ⟨g, hg, hgu⟩ := List.mem_map.mp hmem
      have hne := List.find?_eq_none.mp hfind g hg
      simp [hgu] at hne

/-- C9: the gamification store keeps at most one GamificationState per
user across engine updates, the code's `create_database_indexes` backs
this with a unique index on user_id of the gamification collection, the
initial record satisfies level ≥ 1 and points ≥ 0, and the engine
preserves level ≥ 1. -/
theorem gamification_one_record_per_user :
    (∀ (store : List GamificationState) (e : ScoredEvent),
      (store.map GamificationState.userId).Nodup →
      ((applyScoredStore store e).map GamificationState.userId).Nodup) ∧
    ((⟨[("user_id", SortOrder.asc)], true⟩ : IndexModel) ∈
      gamification_indexes) ∧
    (∀ u, 1 ≤ (initGamification u).level ∧ 0 ≤ (initGamification u).points) ∧
    (∀ (g : GamificationState) (e : ScoredEvent),
      1 ≤ g.level → 1 ≤ (applyScored g e).level) := by
  refine ⟨gamStore_nodup, by decide, fun u => ⟨le_refl 1, Nat.zero_le 0⟩,
    fun g e hg => ?_⟩
  by_cases h : e.attemptId ∈ g.applied
  · simpa [applyScored, h] using hg
  · simp [applyScored, h, levelOf]

/-- C9 (witness): consuming one scored event in the empty store, and the
level bound on the updated fresh record. -/
theorem gamification_one_record_per_user_witness :
    ((applyScoredStore [] ⟨0, "U", "T", .medium, 70⟩).map
      GamificationState.userId).Nodup ∧
    1 ≤ (applyScored (initGamification "V") ⟨1, "V", "T", .medium, 70⟩).level :=
  ⟨gamification_one_record_per_user.1 [] ⟨0, "U", "T", .medium, 70⟩ (by simp),
   gamification_one_record_per_user.2.2.2 (initGamification "V")
     ⟨1, "V", "T", .medium, 70⟩ (by decide)⟩

/-- Per-question credit is unambiguous. -/
theorem creditRel_det {e : RubricEntry} {answers : List (String × String)}
    {n₁ n₂ : Nat} (h₁ : CreditRel e answers n₁) (h₂ : CreditRel e answers n₂) :
    n₁ = n₂ := by
  cases h₁ <;> cases h₂ <;> simp_all

/-- The per-section breakdown is unambiguous. -/
theorem breakdownRel_det {es : List RubricEntry}
    {answers : List (String × String)} {bs₁ bs₂ : List (String × Nat)}
    (h₁ : BreakdownRel es answers bs₁) (h₂ : BreakdownRel es answers bs₂) :
    bs₁ = bs₂ := by
  induction h₁ generalizing bs₂ with
  | nil answers => cases h₂; rfl
  | cons e es answers n bs h hs ih =>
      cases h₂ with
      | cons _ _ _ n' bs' h' hs' =>
          rw [creditRel_det h h', ih hs']

/-- The scoring judgment is unambiguous. -/
theorem scoresTo_det {t : Test} {answers : List (String × String)}
    {r₁ r₂ : Except CoreError ScoreBreakdown}
    (h₁ : ScoresTo t answers r₁) (h₂ : ScoresTo t answers r₂) : r₁ = r₂ := by
  cases h₁ with
  | ok bs₁ hcov₁ hbs₁ =>
      cases h₂ with
      | ok bs₂ hcov₂ hbs₂ => rw [breakdownRel_det hbs₁ hbs₂]
      | mismatch hcov₂ => rw [hcov₁] at hcov₂; cases hcov₂
  | mismatch hcov₁ =>
      cases h₂ with
      | ok bs₂ hcov₂ _ => rw [hcov₁] at hcov₂; cases hcov₂
      | mismatch => rfl

/-- The engine's run realizes the breakdown judgment. -/
theorem breakdownRel_eval (es : List RubricEntry)
    (answers : List (String × String)) :
    BreakdownRel es answers
      (es.map (fun e => (e.questionId, questionCredit e answers))) := by
  induction es with
  | nil => exact .nil answers
  | cons e es ih =>
      rw [List.map_cons]
      refine .cons e es answers (questionCredit e answers) _ ?_ ih
      cases h : answers.lookup e.questionId with
      | none =>
          have h0 := CreditRel.unanswered e answers h
          simpa [questionCredit, h] using h0
      | some r =>
          have h0 := CreditRel.answered e answers r h
          simpa [questionCredit, h] using h0

/-- The function `evaluate` realizes the scoring judgment. -/
theorem scoresTo_eval (t : Test) (answers : List (String × String)) :
    ScoresTo t answers (evaluate t answers) := by
  by_cases hcov :
      t.questions.all (fun q => t.rubric.any (fun e => e.questionId == q)) = true
  · have h0 := ScoresTo.ok t answers
      (t.rubric.map (fun e => (e.questionId, questionCredit e answers)))
      hcov (breakdownRel_eval t.rubric answers)
    simpa [evaluate, hcov] using h0
  · have hcov' :
        t.questions.all (fun q => t.rubric.any (fun e => e.questionId == q)) =
          false := Bool.eq_false_iff.mpr hcov
    have h0 := ScoresTo.mismatch t answers hcov'
    simpa [evaluate, hcov'] using h0

/-- C6: the Scoring Engine is deterministic — any two runs of the
scoring judgment on the same answers and rubric produce the same score
and per-section breakdown, and the pure function `evaluate` realizes
that unique result. -/
theorem scoring_deterministic :
    (∀ (t : Test) (answers : List (String × String))
        (r₁ r₂ : Except CoreError ScoreBreakdown),
      ScoresTo t answers r₁ → ScoresTo t answers r₂ → r₁ = r₂) ∧
    (∀ (t : Test) (answers : List (String × String)),
      ScoresTo t answers (evaluate t answers)) :=
  ⟨fun _ _ _ _ h₁ h₂ => scoresTo_det h₁ h₂, scoresTo_eval⟩

/-- C6 (witness): two runs on the scenario's answers and rubric agree,
and the unique result is the score 70 with its breakdown. -/
theorem scoring_deterministic_witness :
    evaluate demoTest demoAnswers = evaluate demoTest demoAnswers ∧
    evaluate demoTest demoAnswers =
      .ok ⟨70, [("Q1", 40), ("Q2", 0), ("Q3", 30)]⟩ :=
  ⟨scoring_deterministic.1 demoTest demoAnswers _ _
      (scoring_deterministic.2 demoTest demoAnswers)
      (scoring_deterministic.2 demoTest demoAnswers),
   by rfl⟩

/-- C3: the §8 scenario — starting an attempt on the 3-question
exact-match test with weights 40/30/30, answering Q1 correctly, Q2
incorrectly and Q3 correctly, then submitting and scoring, yields score
70, leaves the attempt Scored, emits exactly one `attempt_scored` event,
and consuming that event raises the user's points by
`basePoints(difficulty) × multiplier(70)`. -/
theorem scenario_exact_match :
    (∃ s, scenarioRun = .ok s ∧
      findAttempt s 0 =
        some ⟨0, "U", "T", .scored, demoAnswers, 0, some 4, some 70⟩ ∧
      s.events.countP (fun e => e.eventType == .attempt_scored) = 1) ∧
    (applyScored (initGamification "U")
        ⟨0, "U", "T", demoTest.difficulty, 70⟩).points =
      (initGamification "U").points +
        basePoints demoTest.difficulty * multiplier 70 := by
  refine ⟨⟨⟨[⟨0, "U", "T", .scored, demoAnswers, 0, some 4, some 70⟩],
    [⟨.attempt_started, "U", 0, "T", 0, none⟩,
     ⟨.answer_submitted, "U", 0, "T", 1, none⟩,
     ⟨.answer_submitted, "U", 0, "T", 2, none⟩,
     ⟨.answer_submitted, "U", 0, "T", 3, none⟩,
     ⟨.attempt_submitted, "U", 0, "T", 4, none⟩,
     ⟨.attempt_scored, "U", 0, "T", 4, some 70⟩], 1⟩, ?_, ?_, ?_⟩, ?_⟩ <;> rfl

end SSB
